import Mathlib

/-!
Verification of the peerscanner host actor (host.go).

The development shallowly embeds the pure state transitions of host.go:
DNS registration and deregistration, the rename-on-reset logic, the pause
entry action, the connectivity prober's success and refusal classification,
and the secondary (no-CDN) registration gate on the distribution status.
External collaborators (the DNS provider, the rotation-group set operations
and the cfr distribution provider, whose code is not part of the sources)
are modelled from the specification's collaborator contracts; network I/O
is modelled by passing each attempt's observed outcome as data.
-/

namespace Peerscanner

/-- A DNS record handle, as returned by the DNS provider (cloudflare.Record
in the source; only the name and ip matter to the orchestration). -/
structure Record where
  name : String
  ip : String
  deriving DecidableEq

/-- A cfr.Distribution handle: the orchestration only reads its Status. -/
structure Distribution where
  Status : String
  deriving DecidableEq

/-- One rotation group as seen by a single host: its subdomain tag and
whether this host is currently a member.  The group type of the source
holds a set of hosts; restricted to one host that set is one boolean. -/
structure group where
  subdomain : String
  member : Bool
  deriving DecidableEq

/-- The duplicate-exists message the DNS provider returns, matched by
isDuplicateError in host.go. -/
def duplicateMsg : String := "The record already exists."

/-- Boolean prefix test on character lists (helper for containsSubstr). -/
def listIsPrefixB : List Char → List Char → Bool
  | [], _ => true
  | _ :: _, [] => false
  | a :: as, b :: bs => a == b && listIsPrefixB as bs

/-- strings.Contains of Go, on the underlying character lists. -/
def containsSubAux (pat : List Char) : List Char → Bool
  | [] => listIsPrefixB pat []
  | c :: rest => listIsPrefixB pat (c :: rest) || containsSubAux pat rest

/-- strings.Contains s pat of Go. -/
def containsSubstr (s pat : String) : Bool :=
  containsSubAux pat.data s.data

/-- isDuplicateError from host.go: the error message contains the
provider's record-already-exists text. -/
def isDuplicateError (e : String) : Bool :=
  containsSubstr e duplicateMsg

/-- Modelled from the spec: the DNS provider's record store.  The spec's
collaborator contract is createRecord(name, ip) returning a record, a
DuplicateError or an Error, and destroyRecord(record) returning ok or an
Error; the provider client (cflutil) is not part of the sources. -/
structure DnsWorld where
  records : List Record
  deriving DecidableEq

/-- Whether the provider holds a record under the given name. -/
def DnsWorld.hasName (w : DnsWorld) (nm : String) : Bool :=
  w.records.any (fun r => r.name == nm)

/-- Modelled from the spec: createRecord(name, ip).  A second record under
an existing name is refused with the duplicate-exists message; otherwise
the record is created and returned. -/
def DnsWorld.createRecord (w : DnsWorld) (nm ip : String) :
    DnsWorld × Option Record × Option String :=
  if w.hasName nm then (w, none, some duplicateMsg)
  else (⟨⟨nm, ip⟩ :: w.records⟩, some ⟨nm, ip⟩, none)

/-- Modelled from the spec: destroyRecord(record).  Destroying a held
record removes it; a nil record handle is an error. -/
def DnsWorld.destroyRecord (w : DnsWorld) (r : Option Record) :
    DnsWorld × Option String :=
  match r with
  | none => (w, some "no record to destroy")
  | some rec => (⟨w.records.filter (fun x => !(x == rec))⟩, none)

/-- Modelled from the spec: the prefix put before a host name to form its
secondary, origin-only (no-CDN) DNS name.  Its constant definition is not
among the sources; only that it is a fixed prefix matters here. -/
def noCdnPrefix : String := "nocdn."

/-- The host structure of host.go, restricted to the fields the control
logic reads and writes.  The channels and the proxied HTTP client are I/O
plumbing and are not modelled; timestamps are Nat, with 0 standing for the
zero time.Time sentinel. -/
structure host where
  name : String
  ip : String
  cdnRecord : Option Record
  noCdnRecord : Option Record
  cfrDist : Option Distribution
  cdnGroups : List group
  noCdnGroups : List group
  lastSuccess : Nat
  lastTest : Nat
  deriving DecidableEq

/-- host.isFallback calls isCdnFallback(h.name); isCdnFallback is not among
the sources, so the classifier fb is a parameter (modelled from the spec:
the host class is a function of the name). -/
def host.isFallback (fb : String → Bool) (h : host) : Bool :=
  fb h.name

/-- host.fullName: the name joined with the configured domain (cfldomain
is external configuration, passed as a parameter). -/
def host.fullName (cfldomain : String) (h : host) : String :=
  h.name ++ "." ++ cfldomain

/-- Modelled from the spec: group.register restricted to one host, an
idempotent set-add that reports the duplicate condition on an
already-present member (the group methods are not among the sources). -/
def group.registerHost (g : group) : group × Option String :=
  if g.member then (g, some duplicateMsg)
  else ({ g with member := true }, none)

/-- Modelled from the spec: group.deregister restricted to one host, an
idempotent set-remove. -/
def group.deregisterHost (g : group) : group :=
  { g with member := false }

/-- The loop body shared by registerToCdnRotations and
registerToNoCdnRotations in host.go: register with each group in turn,
swallowing duplicate conditions and aborting on any other error (the
groups already visited keep their new state). -/
def registerRotations : List group → List group × Option String
  | [] => ([], none)
  | g :: gs =>
    let p := g.registerHost
    match p.2 with
    | some e =>
      if isDuplicateError e then
        let q := registerRotations gs
        (p.1 :: q.1, q.2)
      else (p.1 :: gs, some e)
    | none =>
      let q := registerRotations gs
      (p.1 :: q.1, q.2)

/-- registerToCdnRotations from host.go. -/
def host.registerToCdnRotations (h : host) : host × Option String :=
  let q := registerRotations h.cdnGroups
  ({ h with cdnGroups := q.1 }, q.2)

/-- registerToNoCdnRotations from host.go. -/
def host.registerToNoCdnRotations (h : host) : host × Option String :=
  let q := registerRotations h.noCdnGroups
  ({ h with noCdnGroups := q.1 }, q.2)

/-- registerCdnHost from host.go: skip when a record handle is already
held; otherwise create, absorbing the duplicate-exists error (the record
returned with a duplicate error is adopted as-is, nil included). -/
def host.registerCdnHost (h : host) (w : DnsWorld) :
    host × DnsWorld × Option String :=
  match h.cdnRecord with
  | some _ => (h, w, none)
  | none =>
    let t := w.createRecord h.name h.ip
    match t.2.2 with
    | none => ({ h with cdnRecord := t.2.1 }, t.1, none)
    | some e =>
      if isDuplicateError e then ({ h with cdnRecord := t.2.1 }, t.1, none)
      else (h, t.1, some e)

/-- registerNoCdnHost from host.go: as registerCdnHost, for the
noCdnPrefix-ed name and the noCdnRecord handle. -/
def host.registerNoCdnHost (h : host) (w : DnsWorld) :
    host × DnsWorld × Option String :=
  match h.noCdnRecord with
  | some _ => (h, w, none)
  | none =>
    let t := w.createRecord (noCdnPrefix ++ h.name) h.ip
    match t.2.2 with
    | none => ({ h with noCdnRecord := t.2.1 }, t.1, none)
    | some e =>
      if isDuplicateError e then ({ h with noCdnRecord := t.2.1 }, t.1, none)
      else (h, t.1, some e)

/-- registerCdn from host.go: host record, then rotations, each error
aborting with a wrapping message. -/
def host.registerCdn (h : host) (w : DnsWorld) :
    host × DnsWorld × Option String :=
  let t := h.registerCdnHost w
  match t.2.2 with
  | some e => (t.1, t.2.1, some ("Unable to register host: " ++ e))
  | none =>
    let q := t.1.registerToCdnRotations
    match q.2 with
    | some e => (q.1, t.2.1, some ("Unable to register rotations: " ++ e))
    | none => (q.1, t.2.1, none)

/-- registerNoCdn from host.go. -/
def host.registerNoCdn (h : host) (w : DnsWorld) :
    host × DnsWorld × Option String :=
  let t := h.registerNoCdnHost w
  match t.2.2 with
  | some e => (t.1, t.2.1, some ("Unable to register no-CDN entry for host: " ++ e))
  | none =>
    let q := t.1.registerToNoCdnRotations
    match q.2 with
    | some e => (q.1, t.2.1, some ("Unable to register no-CDN rotations: " ++ e))
    | none => (q.1, t.2.1, none)

/-- register from host.go: always the CDN side; the no-CDN side only when
a distribution handle exists with Status Deployed. -/
def host.register (h : host) (w : DnsWorld) :
    host × DnsWorld × Option String :=
  let t := h.registerCdn w
  match t.2.2 with
  | some e => (t.1, t.2.1, some e)
  | none =>
    match t.1.cfrDist with
    | some d =>
      if d.Status == "Deployed" then t.1.registerNoCdn t.2.1
      else (t.1, t.2.1, none)
    | none => (t.1, t.2.1, none)

/-- doDeregisterCdnHost from host.go: destroy the held record; on a
provider error the handle is kept, otherwise it is cleared. -/
def host.doDeregisterCdnHost (h : host) (w : DnsWorld) : host × DnsWorld :=
  let t := w.destroyRecord h.cdnRecord
  match t.2 with
  | some _ => (h, t.1)
  | none => ({ h with cdnRecord := none }, t.1)

/-- doDeregisterNoCdnHost from host.go. -/
def host.doDeregisterNoCdnHost (h : host) (w : DnsWorld) : host × DnsWorld :=
  let t := w.destroyRecord h.noCdnRecord
  match t.2 with
  | some _ => (h, t.1)
  | none => ({ h with noCdnRecord := none }, t.1)

/-- deregisterCdnHost from host.go: nothing to do without a record handle;
fallback-class hosts are never deregistered here. -/
def host.deregisterCdnHost (fb : String → Bool) (h : host) (w : DnsWorld) :
    host × DnsWorld :=
  match h.cdnRecord with
  | none => (h, w)
  | some _ =>
    if h.isFallback fb then (h, w)
    else h.doDeregisterCdnHost w

/-- deregisterNoCdnHost from host.go. -/
def host.deregisterNoCdnHost (fb : String → Bool) (h : host) (w : DnsWorld) :
    host × DnsWorld :=
  match h.noCdnRecord with
  | none => (h, w)
  | some _ =>
    if h.isFallback fb then (h, w)
    else h.doDeregisterNoCdnHost w

/-- deregisterFromRotations from host.go: leave every assigned rotation
group, both CDN and no-CDN; DNS record handles are untouched. -/
def host.deregisterFromRotations (h : host) : host :=
  { h with cdnGroups := h.cdnGroups.map group.deregisterHost,
           noCdnGroups := h.noCdnGroups.map group.deregisterHost }

/-- deregister from host.go: both DNS host deregistrations (each subject
to the fallback rule), then the rotations. -/
def host.deregister (fb : String → Bool) (h : host) (w : DnsWorld) :
    host × DnsWorld :=
  let t := h.deregisterCdnHost fb w
  let u := t.1.deregisterNoCdnHost fb t.2
  (u.1.deregisterFromRotations, u.2)

/-- The entry action of pause() in host.go: a full deregister.  The
subsequent wait for a reset or unregister signal is channel I/O and is not
modelled. -/
def host.pauseEntry (fb : String → Bool) (h : host) (w : DnsWorld) :
    host × DnsWorld :=
  h.deregister fb w

/-- doReset from host.go: record the out-of-band liveness (lastSuccess set
to now, lastTest cleared to the never sentinel); on a rename with a held
CDN record, destroy both record handles unconditionally, then adopt the
new name. -/
def host.doReset (h : host) (w : DnsWorld) (now : Nat) (newName : String) :
    host × DnsWorld :=
  let h0 := { h with lastSuccess := now, lastTest := 0 }
  if newName != h0.name then
    let t :=
      if h0.cdnRecord.isSome then
        let u := h0.doDeregisterCdnHost w
        u.1.doDeregisterNoCdnHost u.2
      else (h0, w)
    ({ t.1 with name := newName }, t.2)
  else (h0, w)

/-- doInitCfrDist from host.go, with the two external cfr calls modelled
from the spec as data: refreshed is the status RefreshStatus would store
into an InProgress handle, created the reply of CreateDistribution (none
when creation fails; creation is only attempted without a handle). -/
def host.doInitCfrDist (h : host) (refreshed : String)
    (created : Option Distribution) : host :=
  let h1 :=
    match h.cfrDist with
    | some d =>
      if d.Status == "InProgress" then { h with cfrDist := some ⟨refreshed⟩ }
      else h
    | none => h
  match h1.cfrDist with
  | none =>
    match created with
    | some d => { h1 with cfrDist := some d }
    | none => h1
  | some _ => h1

/-- The outcome of the raw TCP dial of one probe attempt. -/
inductive DialResult where
  | ok : DialResult
  | err (msg : String) : DialResult
  deriving DecidableEq

/-- The outcome of the proxied HEAD request of one probe attempt. -/
inductive HeadResult where
  | ok (code : Nat) : HeadResult
  | err (msg : String) : HeadResult
  deriving DecidableEq

/-- The observable outcome of one probe attempt's network exchanges:
the raw dial, the proxied HEAD, and the virtual host the tunnel transport
reported on the first response (stored into h.reportedHost by the
OnFirstResponse callback while the HEAD is served). -/
structure Attempt where
  dial : DialResult
  headResp : HeadResult
  reportedHost : String
  deriving DecidableEq

/-- doIsAbleToProxy from host.go: a failed raw dial to ip:443 fails the
attempt, refused exactly when the error text contains connection refused;
a failed HEAD or a status other than 200 and 301 fails the attempt without
refusal; otherwise the attempt succeeds. -/
def host.doIsAbleToProxy (h : host) (a : Attempt) :
    Bool × Bool × Option String :=
  match a.dial with
  | .err e =>
    (false, containsSubstr e "connection refused",
      some ("Unable to connect to " ++ h.ip ++ ":443: " ++ e))
  | .ok =>
    match a.headResp with
    | .err e =>
      (false, false, some ("Unable to make proxied HEAD request: " ++ e))
    | .ok code =>
      if code != 200 && code != 301 then
        (false, false,
          some ("Proxying via " ++ h.ip ++ " returned unexpected status"))
      else (true, false, none)

/-- The attempt loop of isAbleToProxy in host.go.  On success or refusal
the loop returns at once; a successful attempt whose reported virtual host
differs from the full name is downgraded to a failure, and the mismatch
error is bound to a fresh shadowing variable in the source, so the value
returned stays the attempt's own error. -/
def isAbleToProxyLoop (h : host) (fn : String) :
    List Attempt → Option String → Bool × Bool × Option String
  | [], lastErr => (false, false, lastErr)
  | a :: rest, _ =>
    let t := h.doIsAbleToProxy a
    if t.1 || t.2.1 then
      if t.1 && a.reportedHost != fn then (false, t.2.1, t.2.2)
      else (t.1, t.2.1, t.2.2)
    else isAbleToProxyLoop h fn rest t.2.2

/-- isAbleToProxy from host.go, over the outcomes of the successive
attempts (proxyAttempts of them in the source, set to 1). -/
def host.isAbleToProxy (cfldomain : String) (h : host)
    (attempts : List Attempt) : Bool × Bool × Option String :=
  isAbleToProxyLoop h (h.fullName cfldomain) attempts none

/-- Modelled from the spec: the rotation subdomain tags assigned in
newHost (their constant definitions are not among the sources; only their
distinctness per class matters). -/
def RoundRobin : String := "roundrobin"

def Fallbacks : String := "fallbacks"

def Peers : String := "peers"

def RoundRobinNoCdn : String := "roundrobin-nocdn"

def FallbacksNoCdn : String := "fallbacks-nocdn"

def PeersNoCdn : String := "peers-nocdn"

/-- newHost from host.go, restricted to the modelled fields: the rotation
groups are fixed at construction from the host class; run() initializes
both timestamps to now. -/
def newHost (fb : String → Bool) (nm ip : String) (record : Option Record)
    (now : Nat) : host :=
  if fb nm then
    { name := nm, ip := ip, cdnRecord := record, noCdnRecord := none,
      cfrDist := none,
      cdnGroups := [⟨RoundRobin, false⟩, ⟨Fallbacks, false⟩],
      noCdnGroups := [⟨RoundRobinNoCdn, false⟩, ⟨FallbacksNoCdn, false⟩],
      lastSuccess := now, lastTest := now }
  else
    { name := nm, ip := ip, cdnRecord := record, noCdnRecord := none,
      cfrDist := none,
      cdnGroups := [⟨Peers, false⟩],
      noCdnGroups := [⟨PeersNoCdn, false⟩],
      lastSuccess := now, lastTest := now }

/-- Whether the distribution handle exists and reads Deployed, the gate of
register() for the no-CDN side. -/
def distDeployed (h : host) : Bool :=
  match h.cfrDist with
  | some d => d.Status == "Deployed"
  | none => false

/-- The state-mutating turns of the run loop and pause loop of host.go, as
a step alphabet: a successful test cycle's registration, a reset signal, a
pause entry (pause deadline or unregister signal), a failed test cycle's
rotation-only deregistration, and a distribution-init signal with the
provider's replies as data. -/
inductive Op where
  | register : Op
  | reset (now : Nat) (newName : String) : Op
  | pauseEntry : Op
  | deregisterFromRotations : Op
  | initCfr (refreshed : String) (created : Option Distribution) : Op
  deriving DecidableEq

/-- One turn of the host actor on the host-and-provider state. -/
def step (fb : String → Bool) (s : host × DnsWorld) (op : Op) :
    host × DnsWorld :=
  match op with
  | .register => let t := s.1.register s.2; (t.1, t.2.1)
  | .reset now newName => s.1.doReset s.2 now newName
  | .pauseEntry => s.1.pauseEntry fb s.2
  | .deregisterFromRotations => (s.1.deregisterFromRotations, s.2)
  | .initCfr r c => (s.1.doInitCfrDist r c, s.2)

/-- Run a sequence of turns. -/
def runOps (fb : String → Bool) (s : host × DnsWorld) : List Op →
    host × DnsWorld
  | [] => s
  | op :: ops => runOps fb (step fb s op) ops

/-- The states visited while running a sequence of turns, the initial one
included. -/
def statesAlong (fb : String → Bool) (s : host × DnsWorld) : List Op →
    List (host × DnsWorld)
  | [] => [s]
  | op :: ops => s :: statesAlong fb (step fb s op) ops

/-- Set membership in a rotation group (proof helper). -/
def markMember (g : group) : group :=
  { g with member := true }

/-- The post-registration stability condition (proof helper): the primary
record is held or the provider already has the name, the primary rotations
are joined, and, when the distribution reads Deployed, likewise for the
secondary side. -/
def stableFor (h : host) (w : DnsWorld) : Prop :=
  (h.cdnRecord.isSome = true ∨
    (h.cdnRecord = none ∧ w.hasName h.name = true)) ∧
  (∀ g ∈ h.cdnGroups, g.member = true) ∧
  (distDeployed h = true →
    (h.noCdnRecord.isSome = true ∨
      (h.noCdnRecord = none ∧ w.hasName (noCdnPrefix ++ h.name) = true)) ∧
    (∀ g ∈ h.noCdnGroups, g.member = true))

/-- A classifier for concrete checks: exactly the name f1 is
fallback-class. -/
def fallbackOnlyF1 : String → Bool := fun n => n == "f1"

/-- A concrete peer-class host holding a CDN record and rotation
memberships, for closed instances. -/
def c1host : host :=
  { name := "p1", ip := "1.2.3.4", cdnRecord := some ⟨"p1", "1.2.3.4"⟩,
    noCdnRecord := none, cfrDist := none,
    cdnGroups := [⟨Peers, true⟩], noCdnGroups := [⟨PeersNoCdn, true⟩],
    lastSuccess := 5, lastTest := 5 }

/-- The provider state matching c1host. -/
def c1world : DnsWorld := ⟨[⟨"p1", "1.2.3.4"⟩]⟩

/-- A concrete fallback-class host holding a CDN record and rotation
memberships, for closed instances. -/
def c2host : host :=
  { name := "f1", ip := "2.2.2.2", cdnRecord := some ⟨"f1", "2.2.2.2"⟩,
    noCdnRecord := some ⟨"nocdn.f1", "2.2.2.2"⟩, cfrDist := none,
    cdnGroups := [⟨RoundRobin, true⟩, ⟨Fallbacks, true⟩],
    noCdnGroups := [⟨RoundRobinNoCdn, true⟩, ⟨FallbacksNoCdn, true⟩],
    lastSuccess := 5, lastTest := 5 }

/-- The provider state matching c2host. -/
def c2world : DnsWorld :=
  ⟨[⟨"f1", "2.2.2.2"⟩, ⟨"nocdn.f1", "2.2.2.2"⟩]⟩

/-- A concrete probe attempt: dial and HEAD succeed with status 200, but
the tunnel reports a different virtual host. -/
def mismatchAttempt : Attempt :=
  { dial := DialResult.ok, headResp := HeadResult.ok 200,
    reportedHost := "other.getiantem.org" }

/-- A concrete host without a CDN record but with a live no-CDN record,
for the reset-with-nil-cdnRecord instance. -/
def c10host : host :=
  { name := "p2", ip := "3.3.3.3", cdnRecord := none,
    noCdnRecord := some ⟨"nocdn.p2", "3.3.3.3"⟩, cfrDist := none,
    cdnGroups := [⟨Peers, true⟩], noCdnGroups := [⟨PeersNoCdn, true⟩],
    lastSuccess := 5, lastTest := 5 }

/-! Helper lemmas. -/

theorem map_subdomain_deregister (gs : List group) :
    (gs.map group.deregisterHost).map group.subdomain
      = gs.map group.subdomain := by
  induction gs with
  | nil => rfl
  | cons g rest ih => simp [group.deregisterHost, ih]

theorem mem_map_deregister (gs : List group) :
    ∀ g ∈ gs.map group.deregisterHost, g.member = false := by
  intro g hg
  rcases List.mem_map.mp hg with ⟨a, _, rfl⟩
  rfl

/-- Claim C4: for every host of either class, deregisterFromRotations
removes the host from all of its assigned rotation groups, primary and
secondary alike (the groups keep their subdomain tags), and leaves the
cdnRecord and noCdnRecord fields unchanged. -/
theorem C4_rotations_only (h : host) :
    (∀ g ∈ h.deregisterFromRotations.cdnGroups, g.member = false) ∧
    (∀ g ∈ h.deregisterFromRotations.noCdnGroups, g.member = false) ∧
    h.deregisterFromRotations.cdnGroups.map group.subdomain
      = h.cdnGroups.map group.subdomain ∧
    h.deregisterFromRotations.noCdnGroups.map group.subdomain
      = h.noCdnGroups.map group.subdomain ∧
    h.deregisterFromRotations.cdnRecord = h.cdnRecord ∧
    h.deregisterFromRotations.noCdnRecord = h.noCdnRecord := by
  refine ⟨?_, ?_, ?_, ?_, rfl, rfl⟩
  · exact mem_map_deregister h.cdnGroups
  · exact mem_map_deregister h.noCdnGroups
  · exact map_subdomain_deregister h.cdnGroups
  · exact map_subdomain_deregister h.noCdnGroups

/-- Claim C7: one probe attempt succeeds exactly when the dial succeeds
and the proxied HEAD returns 200 or 301, and reports connection refusal
exactly when the raw dial fails with an error containing the refusal text,
never on HTTP-level failures. -/
theorem C7_attempt_classification (h : host) (a : Attempt) :
    ((h.doIsAbleToProxy a).1 = true ↔
      a.dial = DialResult.ok ∧
        (a.headResp = HeadResult.ok 200 ∨ a.headResp = HeadResult.ok 301)) ∧
    ((h.doIsAbleToProxy a).2.1 = true ↔
      ∃ e, a.dial = DialResult.err e ∧
        containsSubstr e "connection refused" = true) := by
  obtain ⟨d, hr, rep⟩ := a
  cases d with
  | err e => simp [host.doIsAbleToProxy]
  | ok =>
    cases hr with
    | err e => simp [host.doIsAbleToProxy]
    | ok code =>
      by_cases h200 : code = 200 <;> by_cases h301 : code = 301 <;>
        simp [host.doIsAbleToProxy, h200, h301]

theorem isAbleToProxyLoop_mismatch (h : host) (fn : String)
    (attempts : List Attempt)
    (hmm : ∀ a ∈ attempts, a.reportedHost ≠ fn) :
    ∀ e0, (isAbleToProxyLoop h fn attempts e0).1 = false := by
  induction attempts with
  | nil => intro e0; rfl
  | cons a rest ih =>
    intro e0
    have hmma : a.reportedHost ≠ fn := hmm a (by simp)
    simp only [isAbleToProxyLoop]
    by_cases hs : (h.doIsAbleToProxy a).1 <;>
      by_cases hc : (h.doIsAbleToProxy a).2.1 <;>
      simp [hs, hc, hmma, bne_iff_ne, ih fun b hb => hmm b (by simp [hb])]

/-- Claim C5: a probe in which every attempt's reported virtual host
differs from the host's fully-qualified name reports online false, even
when the proxied HEAD returned an accepted status. -/
theorem C5_sticky_mismatch_offline (cfldomain : String) (h : host)
    (attempts : List Attempt)
    (hmm : ∀ a ∈ attempts, a.reportedHost ≠ h.fullName cfldomain) :
    (h.isAbleToProxy cfldomain attempts).1 = false :=
  isAbleToProxyLoop_mismatch h (h.fullName cfldomain) attempts hmm none

/-- Claim C5 witness: a dial that succeeds and a HEAD that returns 200,
with a mismatched reported host, probes offline. -/
theorem C5_witness :
    (c1host.isAbleToProxy "getiantem.org" [mismatchAttempt]).1 = false :=
  C5_sticky_mismatch_offline "getiantem.org" c1host [mismatchAttempt]
    (by decide)

theorem doIsAbleToProxy_of_success (h : host) (a : Attempt)
    (hs : (h.doIsAbleToProxy a).1 = true) :
    h.doIsAbleToProxy a = (true, false, none) := by
  obtain ⟨d, hr, rep⟩ := a
  cases d with
  | err e => simp [host.doIsAbleToProxy] at hs
  | ok =>
    cases hr with
    | err e => simp [host.doIsAbleToProxy] at hs
    | ok code =>
      simp only [host.doIsAbleToProxy] at hs ⊢
      split at hs
      · simp at hs
      · simp_all

/-- Claim C9: when an attempt's network exchange succeeds but the reported
virtual host differs from the fully-qualified name, isAbleToProxy returns
online false with the attempt's own error, nil: the sticky-routing
mismatch error is only logged, never returned. -/
theorem C9_mismatch_error_not_returned (cfldomain : String) (h : host)
    (a : Attempt) (rest : List Attempt)
    (hs : (h.doIsAbleToProxy a).1 = true)
    (hmm : a.reportedHost ≠ h.fullName cfldomain) :
    h.isAbleToProxy cfldomain (a :: rest) = (false, false, none) := by
  have hd := doIsAbleToProxy_of_success h a hs
  simp [host.isAbleToProxy, isAbleToProxyLoop, hd, bne_iff_ne, hmm]

/-- Claim C9 witness: a concrete successful attempt with a mismatched
reported host returns online false and no error. -/
theorem C9_witness :
    c1host.isAbleToProxy "getiantem.org" [mismatchAttempt]
      = (false, false, none) :=
  C9_mismatch_error_not_returned "getiantem.org" c1host mismatchAttempt []
    (by decide) (by decide)

/-- Claim C10: a reset to a new name on a host whose cdnRecord is nil
changes only the name and the timestamps: in particular a held noCdnRecord
survives the rename, both record destructions being guarded by a non-nil
cdnRecord. -/
theorem C10_reset_with_nil_cdnRecord (h : host) (w : DnsWorld) (now : Nat)
    (newName : String) (hcdn : h.cdnRecord = none) (hne : newName ≠ h.name) :
    h.doReset w now newName =
      ({ h with name := newName, lastSuccess := now, lastTest := 0 }, w) := by
  obtain ⟨nm, ip, cdn, nocdn, dist, cgs, ngs, ls, lt⟩ := h
  simp only at hcdn hne
  subst hcdn
  simp [host.doReset, bne_iff_ne, hne]

/-- Claim C10 witness: a concrete reset of a host with no cdnRecord and a
live noCdnRecord renames it and keeps the noCdnRecord. -/
theorem C10_witness :
    c10host.doReset c1world 7 "p2-new" =
      ({ c10host with name := "p2-new", lastSuccess := 7, lastTest := 0 },
        c1world) :=
  C10_reset_with_nil_cdnRecord c10host c1world 7 "p2-new" (by decide)
    (by decide)

/-- Claim C1 counterexample: a peer host named p1 with a held CDN record
and a live rotation membership is reset to the new name p1-new; the rename
preconditions of the claim hold and the name and record are cleared, yet
the rotation membership survives, so the old rotation memberships are not
removed as claimed. -/
theorem C1_counterexample :
    c1host.cdnRecord.isSome = true ∧
    ("p1-new" : String) ≠ c1host.name ∧
    (c1host.doReset c1world 6 "p1-new").1.name = "p1-new" ∧
    ((c1host.doReset c1world 6 "p1-new").1.cdnGroups.all
      (fun g => !g.member)) = false := by decide

/-- Claim C1 as amended: a reset to a new name, while a CDN record is
held, destroys the old name's DNS records (both the cdnRecord and the
noCdnRecord handle end nil) before the host adopts the new name, but the
rotation-group memberships are left unchanged by the rename. -/
theorem C1_rename_clears_dns_not_rotations (h : host) (w : DnsWorld)
    (now : Nat) (newName : String) (hne : newName ≠ h.name)
    (hrec : h.cdnRecord.isSome = true) :
    (h.doReset w now newName).1.name = newName ∧
    (h.doReset w now newName).1.cdnRecord = none ∧
    (h.doReset w now newName).1.noCdnRecord = none ∧
    (h.doReset w now newName).1.cdnGroups = h.cdnGroups ∧
    (h.doReset w now newName).1.noCdnGroups = h.noCdnGroups := by
  obtain ⟨nm, ip, cdn, nocdn, dist, cgs, ngs, ls, lt⟩ := h
  simp only at hne hrec
  obtain ⟨r, rfl⟩ : ∃ r, cdn = some r := by
    cases cdn with
    | none => simp at hrec
    | some r => exact ⟨r, rfl⟩
  cases nocdn <;>
    simp [host.doReset, host.doDeregisterCdnHost, host.doDeregisterNoCdnHost,
      DnsWorld.destroyRecord, bne_iff_ne, hne]

/-- Claim C1 witness: the concrete rename of c1host clears both records,
installs the new name and keeps the memberships. -/
theorem C1_witness :
    (c1host.doReset c1world 6 "p1-new").1.name = "p1-new" ∧
    (c1host.doReset c1world 6 "p1-new").1.cdnRecord = none ∧
    (c1host.doReset c1world 6 "p1-new").1.noCdnRecord = none ∧
    (c1host.doReset c1world 6 "p1-new").1.cdnGroups = c1host.cdnGroups ∧
    (c1host.doReset c1world 6 "p1-new").1.noCdnGroups = c1host.noCdnGroups :=
  C1_rename_clears_dns_not_rotations c1host c1world 6 "p1-new" (by decide)
    (by decide)

/-- deregister() of host.go, characterized (proof helper shared by the
pause-entry and deregister claims): every rotation membership is removed
for either class, the groups keep their subdomains, and the DNS record
handles are cleared for a peer-class host but left untouched for a
fallback-class host. -/
theorem deregister_spec (fb : String → Bool) (h : host) (w : DnsWorld) :
    (∀ g ∈ (h.deregister fb w).1.cdnGroups, g.member = false) ∧
    (∀ g ∈ (h.deregister fb w).1.noCdnGroups, g.member = false) ∧
    (h.deregister fb w).1.cdnGroups.map group.subdomain
      = h.cdnGroups.map group.subdomain ∧
    (h.deregister fb w).1.noCdnGroups.map group.subdomain
      = h.noCdnGroups.map group.subdomain ∧
    (fb h.name = false → (h.deregister fb w).1.cdnRecord = none ∧
      (h.deregister fb w).1.noCdnRecord = none) ∧
    (fb h.name = true → (h.deregister fb w).1.cdnRecord = h.cdnRecord ∧
      (h.deregister fb w).1.noCdnRecord = h.noCdnRecord) := by
  obtain ⟨nm, ip, cdn, nocdn, dist, cgs, ngs, ls, lt⟩ := h
  by_cases hfb : fb nm <;> cases cdn <;> cases nocdn <;>
    simp [host.deregister, host.deregisterCdnHost, host.deregisterNoCdnHost,
      host.isFallback, host.doDeregisterCdnHost, host.doDeregisterNoCdnHost,
      host.deregisterFromRotations, DnsWorld.destroyRecord, hfb,
      group.deregisterHost]

/-- Claim C2 counterexample: c2host is fallback-class under the
fallbackOnlyF1 classifier and holds both DNS records; at pause entry its
rotation memberships are removed but both records survive, so pause entry
does not remove all DNS records for a fallback-class host as claimed. -/
theorem C2_counterexample :
    c2host.isFallback fallbackOnlyF1 = true ∧
    c2host.cdnRecord.isSome = true ∧
    (c2host.pauseEntry fallbackOnlyF1 c2world).1.cdnRecord
      = some ⟨"f1", "2.2.2.2"⟩ ∧
    (c2host.pauseEntry fallbackOnlyF1 c2world).1.noCdnRecord
      = some ⟨"nocdn.f1", "2.2.2.2"⟩ := by decide

/-- Claim C2 as amended: pause entry (reached from the pause deadline or
an unregister signal) removes all rotation-group memberships for either
class, and removes the DNS records only for a peer-class host; a
fallback-class host keeps its cdnRecord and noCdnRecord at pause entry. -/
theorem C2_pause_entry_class_rule (fb : String → Bool) (h : host)
    (w : DnsWorld) :
    (∀ g ∈ (h.pauseEntry fb w).1.cdnGroups, g.member = false) ∧
    (∀ g ∈ (h.pauseEntry fb w).1.noCdnGroups, g.member = false) ∧
    (fb h.name = false → (h.pauseEntry fb w).1.cdnRecord = none ∧
      (h.pauseEntry fb w).1.noCdnRecord = none) ∧
    (fb h.name = true → (h.pauseEntry fb w).1.cdnRecord = h.cdnRecord ∧
      (h.pauseEntry fb w).1.noCdnRecord = h.noCdnRecord) := by
  obtain ⟨a, b, _, _, c, d⟩ := deregister_spec fb h w
  exact ⟨a, b, c, d⟩

/-- Claim C3: deregister() removes the host from all of its assigned
rotation groups, destroys both DNS record handles when the host is
peer-class, and leaves both handles unchanged when the host is
fallback-class. -/
theorem C3_deregister_class_asymmetry (fb : String → Bool) (h : host)
    (w : DnsWorld) :
    (∀ g ∈ (h.deregister fb w).1.cdnGroups, g.member = false) ∧
    (∀ g ∈ (h.deregister fb w).1.noCdnGroups, g.member = false) ∧
    (h.deregister fb w).1.cdnGroups.map group.subdomain
      = h.cdnGroups.map group.subdomain ∧
    (h.deregister fb w).1.noCdnGroups.map group.subdomain
      = h.noCdnGroups.map group.subdomain ∧
    (fb h.name = false → (h.deregister fb w).1.cdnRecord = none ∧
      (h.deregister fb w).1.noCdnRecord = none) ∧
    (fb h.name = true → (h.deregister fb w).1.cdnRecord = h.cdnRecord ∧
      (h.deregister fb w).1.noCdnRecord = h.noCdnRecord) :=
  deregister_spec fb h w

theorem isDuplicateError_duplicateMsg :
    isDuplicateError duplicateMsg = true := by decide

theorem registerRotations_eq (gs : List group) :
    registerRotations gs = (gs.map markMember, none) := by
  induction gs with
  | nil => rfl
  | cons g rest ih =>
    obtain ⟨sub, mem⟩ := g
    cases mem <;>
      simp [registerRotations, group.registerHost, markMember, ih,
        isDuplicateError_duplicateMsg]

theorem mem_map_markMember (gs : List group) :
    ∀ g ∈ gs.map markMember, g.member = true := by
  intro g hg
  rcases List.mem_map.mp hg with ⟨a, _, rfl⟩
  rfl

theorem map_markMember_of_all (gs : List group)
    (hg : ∀ g ∈ gs, g.member = true) : gs.map markMember = gs := by
  induction gs with
  | nil => rfl
  | cons g rest ih =>
    obtain ⟨sub, mem⟩ := g
    have h1 := hg ⟨sub, mem⟩ (by simp)
    simp only at h1
    subst h1
    simp only [List.map_cons, List.cons.injEq]
    exact ⟨rfl, ih fun b hb => hg b (by simp [hb])⟩

theorem registerCdn_eq (h : host) (w : DnsWorld) :
    h.registerCdn w =
      match h.cdnRecord with
      | some r =>
        ({ h with cdnRecord := some r
                  cdnGroups := h.cdnGroups.map markMember }, w, none)
      | none =>
        if w.hasName h.name then
          ({ h with cdnRecord := none
                    cdnGroups := h.cdnGroups.map markMember }, w, none)
        else
          ({ h with cdnRecord := some ⟨h.name, h.ip⟩
                    cdnGroups := h.cdnGroups.map markMember },
            ⟨⟨h.name, h.ip⟩ :: w.records⟩, none) := by
  obtain ⟨nm, ip, cdn, nocdn, dist, cgs, ngs, ls, lt⟩ := h
  cases cdn with
  | some r =>
    simp [host.registerCdn, host.registerCdnHost, host.registerToCdnRotations,
      registerRotations_eq]
  | none =>
    by_cases hw : w.hasName nm <;>
      simp [host.registerCdn, host.registerCdnHost,
        host.registerToCdnRotations, DnsWorld.createRecord,
        registerRotations_eq, isDuplicateError_duplicateMsg, hw]

theorem registerNoCdn_eq (h : host) (w : DnsWorld) :
    h.registerNoCdn w =
      match h.noCdnRecord with
      | some r =>
        ({ h with noCdnRecord := some r
                  noCdnGroups := h.noCdnGroups.map markMember }, w, none)
      | none =>
        if w.hasName (noCdnPrefix ++ h.name) then
          ({ h with noCdnRecord := none
                    noCdnGroups := h.noCdnGroups.map markMember }, w, none)
        else
          ({ h with noCdnRecord := some ⟨noCdnPrefix ++ h.name, h.ip⟩
                    noCdnGroups := h.noCdnGroups.map markMember },
            ⟨⟨noCdnPrefix ++ h.name, h.ip⟩ :: w.records⟩, none) := by
  obtain ⟨nm, ip, cdn, nocdn, dist, cgs, ngs, ls, lt⟩ := h
  cases nocdn with
  | some r =>
    simp [host.registerNoCdn, host.registerNoCdnHost,
      host.registerToNoCdnRotations, registerRotations_eq]
  | none =>
    by_cases hw : w.hasName (noCdnPrefix ++ nm) <;>
      simp [host.registerNoCdn, host.registerNoCdnHost,
        host.registerToNoCdnRotations, DnsWorld.createRecord,
        registerRotations_eq, isDuplicateError_duplicateMsg, hw]

theorem registerCdn_err (h : host) (w : DnsWorld) :
    (h.registerCdn w).2.2 = none := by
  rw [registerCdn_eq]
  cases h.cdnRecord with
  | some r => rfl
  | none => by_cases hw : w.hasName h.name <;> simp [hw]

theorem register_eq (h : host) (w : DnsWorld) :
    h.register w =
      if distDeployed (h.registerCdn w).1 then
        (h.registerCdn w).1.registerNoCdn (h.registerCdn w).2.1
      else ((h.registerCdn w).1, (h.registerCdn w).2.1, none) := by
  have he := registerCdn_err h w
  simp only [host.register]
  rcases ht : h.registerCdn w with ⟨h1, w1, e1⟩
  rw [ht] at he
  simp only at he
  subst he
  simp only [distDeployed]
  cases h1.cfrDist with
  | none => rfl
  | some d => by_cases hd : d.Status == "Deployed" <;> simp [hd]

theorem registerNoCdn_err (h : host) (w : DnsWorld) :
    (h.registerNoCdn w).2.2 = none := by
  rw [registerNoCdn_eq]
  cases h.noCdnRecord with
  | some r => rfl
  | none =>
    by_cases hw : w.hasName (noCdnPrefix ++ h.name) <;> simp [hw]

theorem registerCdn_frame (h : host) (w : DnsWorld) :
    (h.registerCdn w).1.name = h.name ∧
    (h.registerCdn w).1.cfrDist = h.cfrDist ∧
    (h.registerCdn w).1.noCdnRecord = h.noCdnRecord ∧
    (h.registerCdn w).1.noCdnGroups = h.noCdnGroups ∧
    (h.registerCdn w).1.cdnGroups = h.cdnGroups.map markMember := by
  rw [registerCdn_eq]
  cases h.cdnRecord with
  | some r => exact ⟨rfl, rfl, rfl, rfl, rfl⟩
  | none => by_cases hw : w.hasName h.name <;> simp [hw]

theorem registerNoCdn_frame (h : host) (w : DnsWorld) :
    (h.registerNoCdn w).1.name = h.name ∧
    (h.registerNoCdn w).1.cfrDist = h.cfrDist ∧
    (h.registerNoCdn w).1.cdnRecord = h.cdnRecord ∧
    (h.registerNoCdn w).1.cdnGroups = h.cdnGroups ∧
    (h.registerNoCdn w).1.noCdnGroups = h.noCdnGroups.map markMember := by
  rw [registerNoCdn_eq]
  cases h.noCdnRecord with
  | some r => exact ⟨rfl, rfl, rfl, rfl, rfl⟩
  | none =>
    by_cases hw : w.hasName (noCdnPrefix ++ h.name) <;> simp [hw]

theorem distDeployed_congr (h1 h2 : host) (he : h1.cfrDist = h2.cfrDist) :
    distDeployed h1 = distDeployed h2 := by
  simp [distDeployed, he]

theorem registerCdn_record (h : host) (w : DnsWorld) :
    (h.registerCdn w).1.cdnRecord.isSome = true ∨
      ((h.registerCdn w).1.cdnRecord = none ∧
        (h.registerCdn w).2.1.hasName h.name = true) := by
  rw [registerCdn_eq]
  cases h.cdnRecord with
  | some r => left; rfl
  | none =>
    by_cases hw : w.hasName h.name
    · right
      simp [hw]
    · left
      simp [hw]

theorem registerNoCdn_record (h : host) (w : DnsWorld) :
    (h.registerNoCdn w).1.noCdnRecord.isSome = true ∨
      ((h.registerNoCdn w).1.noCdnRecord = none ∧
        (h.registerNoCdn w).2.1.hasName (noCdnPrefix ++ h.name) = true) := by
  rw [registerNoCdn_eq]
  cases h.noCdnRecord with
  | some r => left; rfl
  | none =>
    by_cases hw : w.hasName (noCdnPrefix ++ h.name)
    · right
      simp [hw]
    · left
      simp [hw]

theorem registerNoCdn_hasName_mono (h : host) (w : DnsWorld) (nm : String)
    (hw : w.hasName nm = true) :
    (h.registerNoCdn w).2.1.hasName nm = true := by
  rw [registerNoCdn_eq]
  cases h.noCdnRecord with
  | some r => exact hw
  | none =>
    by_cases hw2 : w.hasName (noCdnPrefix ++ h.name)
    · simpa [hw2]
    · simp only [hw2, if_neg, Bool.false_eq_true, not_false_eq_true]
      simp [DnsWorld.hasName] at hw ⊢
      rcases hw with ⟨r, hr1, hr2⟩
      exact Or.inr ⟨r, hr1, hr2⟩

theorem register_err (h : host) (w : DnsWorld) :
    (h.register w).2.2 = none := by
  rw [register_eq]
  by_cases hd : distDeployed (h.registerCdn w).1 = true <;> simp [hd]
  exact registerNoCdn_err _ _

theorem register_frame (h : host) (w : DnsWorld) :
    (h.register w).1.name = h.name ∧
    (h.register w).1.cfrDist = h.cfrDist := by
  rw [register_eq]
  obtain ⟨hn1, hd1, _, _, _⟩ := registerCdn_frame h w
  by_cases hd : distDeployed (h.registerCdn w).1 = true <;> simp [hd]
  · obtain ⟨hn2, hd2, _, _, _⟩ :=
      registerNoCdn_frame (h.registerCdn w).1 (h.registerCdn w).2.1
    exact ⟨hn2.trans hn1, hd2.trans hd1⟩
  · exact ⟨hn1, hd1⟩

theorem register_noCdn_unchanged (h : host) (w : DnsWorld)
    (hd : distDeployed h = false) :
    (h.register w).1.noCdnRecord = h.noCdnRecord ∧
    (h.register w).1.noCdnGroups = h.noCdnGroups := by
  rw [register_eq]
  obtain ⟨_, hdist, hnr, hng, _⟩ := registerCdn_frame h w
  have hd1 : distDeployed (h.registerCdn w).1 = false :=
    (distDeployed_congr _ _ hdist).trans hd
  simp [hd1]
  exact ⟨hnr, hng⟩

theorem register_stableFor (h : host) (w : DnsWorld) :
    stableFor (h.register w).1 (h.register w).2.1 := by
  rw [register_eq]
  obtain ⟨hn1, hd1, hnr1, hng1, hcg1⟩ := registerCdn_frame h w
  by_cases hd : distDeployed (h.registerCdn w).1 = true <;> simp [hd]
  · obtain ⟨hn2, hd2, hcr2, hcg2, hng2⟩ :=
      registerNoCdn_frame (h.registerCdn w).1 (h.registerCdn w).2.1
    refine ⟨?_, ?_, ?_⟩
    · rcases registerCdn_record h w with hrec | ⟨hrec, hnm⟩
      · left
        rw [hcr2]
        exact hrec
      · right
        refine ⟨by rw [hcr2]; exact hrec, ?_⟩
        rw [hn2, hn1]
        exact registerNoCdn_hasName_mono _ _ _ hnm
    · intro g hg
      rw [hcg2, hcg1] at hg
      exact mem_map_markMember _ g hg
    · intro _
      constructor
      · rcases registerNoCdn_record (h.registerCdn w).1 (h.registerCdn w).2.1
          with hrec | ⟨hrec, hnm⟩
        · left
          exact hrec
        · right
          refine ⟨hrec, ?_⟩
          rw [hn2, hn1]
          rw [hn1] at hnm
          exact hnm
      · intro g hg
        rw [hng2, hng1] at hg
        exact mem_map_markMember _ g hg
  · have hd2 : distDeployed (h.registerCdn w).1 = false := by
      simpa using hd
    refine ⟨?_, ?_, ?_⟩
    · rcases registerCdn_record h w with hrec | ⟨hrec, hnm⟩
      · left
        exact hrec
      · right
        exact ⟨hrec, by rwa [hn1]⟩
    · intro g hg
      rw [hcg1] at hg
      exact mem_map_markMember _ g hg
    · intro hcon
      rw [hcon] at hd2
      simp at hd2

theorem registerCdn_stable (h : host) (w : DnsWorld)
    (hr : h.cdnRecord.isSome = true ∨
      (h.cdnRecord = none ∧ w.hasName h.name = true))
    (hg : ∀ g ∈ h.cdnGroups, g.member = true) :
    h.registerCdn w = (h, w, none) := by
  rw [registerCdn_eq]
  have hmap := map_markMember_of_all h.cdnGroups hg
  cases hc : h.cdnRecord with
  | some r =>
    simp only [hmap]
    rw [← hc]
  | none =>
    rcases hr with hr | ⟨_, hw⟩
    · rw [hc] at hr
      simp at hr
    · simp only [hw, if_true, hmap]
      rw [← hc]

theorem registerNoCdn_stable (h : host) (w : DnsWorld)
    (hr : h.noCdnRecord.isSome = true ∨
      (h.noCdnRecord = none ∧ w.hasName (noCdnPrefix ++ h.name) = true))
    (hg : ∀ g ∈ h.noCdnGroups, g.member = true) :
    h.registerNoCdn w = (h, w, none) := by
  rw [registerNoCdn_eq]
  have hmap := map_markMember_of_all h.noCdnGroups hg
  cases hc : h.noCdnRecord with
  | some r =>
    simp only [hmap]
    rw [← hc]
  | none =>
    rcases hr with hr | ⟨_, hw⟩
    · rw [hc] at hr
      simp at hr
    · simp only [hw, if_true, hmap]
      rw [← hc]

theorem register_stable (h : host) (w : DnsWorld) (hs : stableFor h w) :
    h.register w = (h, w, none) := by
  obtain ⟨hr, hg, hno⟩ := hs
  rw [register_eq]
  rw [registerCdn_stable h w hr hg]
  by_cases hd : distDeployed h = true
  · simp only [hd, if_true]
    obtain ⟨hnr, hng⟩ := hno hd
    exact registerNoCdn_stable h w hnr hng
  · simp [hd]

/-- Claim C6: registration is idempotent against duplicate-exists replies:
register surfaces no error, a second run from the state the first run left
behind changes nothing and surfaces no error, and a createRecord call that
hits a provider duplicate is absorbed as success. -/
theorem C6_registration_idempotent (h : host) (w : DnsWorld) :
    (h.register w).2.2 = none ∧
    (h.register w).1.register (h.register w).2.1
      = ((h.register w).1, (h.register w).2.1, none) ∧
    (h.cdnRecord = none → w.hasName h.name = true →
      (h.registerCdnHost w).2.2 = none ∧ (h.registerCdnHost w).2.1 = w) := by
  refine ⟨register_err h w, ?_, ?_⟩
  · exact register_stable _ _ (register_stableFor h w)
  · intro hc hw
    obtain ⟨nm, ip, cdn, nocdn, dist, cgs, ngs, ls, lt⟩ := h
    simp only at hc hw
    subst hc
    simp [host.registerCdnHost, DnsWorld.createRecord, hw,
      isDuplicateError_duplicateMsg]

theorem doReset_noCdn_none (h : host) (w : DnsWorld) (now : Nat)
    (nn : String) (hn : h.noCdnRecord = none) :
    (h.doReset w now nn).1.noCdnRecord = none := by
  obtain ⟨nm, ip, cdn, nocdn, dist, cgs, ngs, ls, lt⟩ := h
  simp only at hn
  subst hn
  by_cases hb : (nn != nm) = true
  · cases cdn <;>
      simp [host.doReset, host.doDeregisterCdnHost,
        host.doDeregisterNoCdnHost, DnsWorld.destroyRecord, hb]
  · simp [host.doReset, hb]

theorem deregister_noCdn_none (fb : String → Bool) (h : host) (w : DnsWorld)
    (hn : h.noCdnRecord = none) :
    (h.deregister fb w).1.noCdnRecord = none := by
  have hs := deregister_spec fb h w
  cases hfb : fb h.name with
  | true => rw [(hs.2.2.2.2.2 hfb).2, hn]
  | false => exact (hs.2.2.2.2.1 hfb).2

theorem doInitCfrDist_noCdn (h : host) (r : String)
    (c : Option Distribution) :
    (h.doInitCfrDist r c).noCdnRecord = h.noCdnRecord := by
  obtain ⟨nm, ip, cdn, nocdn, dist, cgs, ngs, ls, lt⟩ := h
  cases dist with
  | none => cases c <;> simp [host.doInitCfrDist]
  | some d =>
    by_cases hd : (d.Status == "InProgress") = true <;>
      simp [host.doInitCfrDist, hd]

theorem step_noCdn_none (fb : String → Bool) (s : host × DnsWorld) (op : Op)
    (hn : s.1.noCdnRecord = none) (hd : distDeployed s.1 = false) :
    (step fb s op).1.noCdnRecord = none := by
  cases op with
  | register =>
    have := (register_noCdn_unchanged s.1 s.2 hd).1
    simp only [step]
    rw [this, hn]
  | reset now nn => exact doReset_noCdn_none s.1 s.2 now nn hn
  | pauseEntry => exact deregister_noCdn_none fb s.1 s.2 hn
  | deregisterFromRotations =>
    simp only [step, host.deregisterFromRotations]
    exact hn
  | initCfr r c =>
    simp only [step]
    rw [doInitCfrDist_noCdn, hn]

theorem trace_deployed_of_noCdn (fb : String → Bool) (ops : List Op) :
    ∀ s : host × DnsWorld, s.1.noCdnRecord = none →
      ((runOps fb s ops).1.noCdnRecord).isSome = true →
      ∃ t ∈ statesAlong fb s ops, distDeployed t.1 = true := by
  induction ops with
  | nil =>
    intro s hn he
    rw [runOps, hn] at he
    simp at he
  | cons op rest ih =>
    intro s hn he
    by_cases hd : distDeployed s.1 = true
    · exact ⟨s, by simp [statesAlong], hd⟩
    · have hd2 : distDeployed s.1 = false := by simpa using hd
      have hn2 := step_noCdn_none fb s op hn hd2
      rcases ih (step fb s op) hn2 (by simpa [runOps] using he) with
        ⟨t, ht, hdt⟩
      exact ⟨t, by simp only [statesAlong, List.mem_cons]; exact Or.inr ht,
        hdt⟩

/-- Claim C8: register ensures the secondary no-CDN record and rotation
memberships exactly when a distribution handle exists with Status
Deployed (without the gate nothing on the secondary side changes), and
along any sequence of actor turns a noCdnRecord can only appear in a state
some predecessor of which had a Deployed distribution. -/
theorem C8_noCdn_gated_on_deployed (fb : String → Bool) (h : host)
    (w : DnsWorld) (ops : List Op) :
    (distDeployed h = true →
      ((h.register w).1.noCdnRecord.isSome = true ∨
        (h.register w).2.1.hasName (noCdnPrefix ++ h.name) = true) ∧
      (∀ g ∈ (h.register w).1.noCdnGroups, g.member = true)) ∧
    (distDeployed h = false →
      (h.register w).1.noCdnRecord = h.noCdnRecord ∧
      (h.register w).1.noCdnGroups = h.noCdnGroups) ∧
    (h.noCdnRecord = none →
      ((runOps fb (h, w) ops).1.noCdnRecord).isSome = true →
      ∃ s ∈ statesAlong fb (h, w) ops, distDeployed s.1 = true) := by
  refine ⟨?_, register_noCdn_unchanged h w, ?_⟩
  · intro hd
    have hst := register_stableFor h w
    have hdd : distDeployed (h.register w).1 = true := by
      rw [distDeployed_congr (h.register w).1 h (register_frame h w).2]
      exact hd
    obtain ⟨hr, hg⟩ := hst.2.2 hdd
    refine ⟨?_, hg⟩
    rcases hr with hr | ⟨_, hw2⟩
    · exact Or.inl hr
    · right
      rw [(register_frame h w).1] at hw2
      exact hw2
  · exact fun hn => trace_deployed_of_noCdn fb ops (h, w) hn

end Peerscanner
